import Mathlib

/-!
Shallow embedding of the `rusty-can` SLCAN firmware core
(`src/slcan.rs`, `src/canbus.rs`, `src/main.rs`).

Bytes are modelled as `Nat`; the fixed-capacity `heapless` queues are
modelled as `List Nat` together with their compile-time capacity bound;
Rust operations that can panic are modelled as `Option`-returning
functions where `none` stands for a panic; fallible operations return
`Except` mirroring the Rust `Result` types.
-/

set_option autoImplicit false
set_option maxRecDepth 8000

abbrev Byte := Nat

deriving instance DecidableEq for Except

/-- slcan.rs: `COMMAND_TERMINATOR: u8 = b'\r'`. -/
def COMMAND_TERMINATOR : Byte := 13

/-- slcan.rs: `ERROR_CHAR: u8 = 7` (the bell byte). -/
def ERROR_CHAR : Byte := 7

/-- slcan.rs `ErrorKind` (the SLCAN error taxonomy). -/
inductive ErrorKind where
  | QueueFull
  | InvalidCommand
  | NotImplemented
  | CANError
  | BufferOverrun
deriving DecidableEq

/-- canbus.rs `ErrorKind` (the CAN-side error taxonomy). -/
inductive CANErrorKind where
  | InvalidTiming
  | BufferOverrun
deriving DecidableEq

/-- canbus.rs `CANBitrate`. -/
inductive CANBitrate where
  | Bitrate10k
  | Bitrate20k
  | Bitrate50k
  | Bitrate100k
  | Bitrate125k
  | Bitrate250k
  | Bitrate500k
  | Bitrate800k
  | Bitrate1M
deriving DecidableEq

/-- slcan.rs `StatusFlags` (packed_struct, msb0 bit numbering; note the
source pins `error_passive` to bit 5, leaving bit 4 unused). -/
structure StatusFlags where
  receive_queue_full : Bool
  transmit_queue_full : Bool
  error_warning : Bool
  data_overrun : Bool
  error_passive : Bool
  arbitration_lost : Bool
  bus_error : Bool
deriving DecidableEq

/-- slcan.rs `StatusFlags::new`: all flags clear. -/
def StatusFlags.new : StatusFlags :=
  ⟨false, false, false, false, false, false, false⟩

/-- slcan.rs `StatusFlags::pack` via packed_struct: msb0, fields at bits
0,1,2,3 and 5,6,7 (bit 4 unused). -/
def StatusFlags.pack (st : StatusFlags) : Byte :=
  (if st.receive_queue_full then 128 else 0) +
  (if st.transmit_queue_full then 64 else 0) +
  (if st.error_warning then 32 else 0) +
  (if st.data_overrun then 16 else 0) +
  (if st.error_passive then 4 else 0) +
  (if st.arbitration_lost then 2 else 0) +
  (if st.bus_error then 1 else 0)

/-- slcan.rs `VersionInfo`. -/
structure VersionInfo where
  hardware_version : Byte
  software_version : Byte
deriving DecidableEq

/-- slcan.rs `SLCAN`: the protocol-engine state. -/
structure SLCAN where
  bitrate : Option CANBitrate
  timestamps_enabled : Bool
  status : StatusFlags
  version : VersionInfo
  serial_number : List Byte
deriving DecidableEq

/-- slcan.rs `SLCAN::new`: hardware 0xFA, software 0x01, serial `b"F446"`. -/
def SLCAN.new : SLCAN :=
  ⟨none, false, StatusFlags.new, ⟨0xFA, 0x01⟩, [70, 52, 52, 54]⟩

/-! ### Hex codec (the `hex` crate, as used by the source) -/

/-- Uppercase hex digit of a nibble (the source always calls
`make_ascii_uppercase` after encoding). -/
def hexDigitUpper (n : Nat) : Byte :=
  if n < 10 then 48 + n else 55 + n

/-- `hex::encode` of a single byte, uppercased: two hex characters. -/
def hexByte (b : Byte) : List Byte :=
  [hexDigitUpper (b / 16), hexDigitUpper (b % 16)]

/-- `hex::encode` of a byte sequence, uppercased. -/
def hexBytes (bs : List Byte) : List Byte :=
  (bs.map hexByte).flatten

/-- Value of one hex character (0-9, a-f, A-F), as the hex crate's `val`. -/
def hexVal (c : Byte) : Option Nat :=
  if 48 ≤ c ∧ c ≤ 57 then some (c - 48)
  else if 97 ≤ c ∧ c ≤ 102 then some (c - 87)
  else if 65 ≤ c ∧ c ≤ 70 then some (c - 55)
  else none

/-- Decode an even-length hex string two characters at a time. -/
def hexDecodePairs : List Byte → Option (List Byte)
  | [] => some []
  | [_] => none
  | hi :: lo :: rest =>
    match hexVal hi, hexVal lo, hexDecodePairs rest with
    | some a, some b, some r => some ((a * 16 + b) :: r)
    | _, _, _ => none

/-- `hex::decode_to_slice(input, out)` with `out.len() = outLen`:
fails (returns a `FromHexError`, collapsed here to `none`) when the input
length is odd, when it is not exactly `2 * outLen`, or on a non-hex
character. -/
def decodeToSlice (input : List Byte) (outLen : Nat) : Option (List Byte) :=
  if input.length % 2 ≠ 0 then none
  else if input.length / 2 ≠ outLen then none
  else hexDecodePairs input

/-- `u16::from_be_bytes` / `u32::from_be_bytes` on a decoded byte list. -/
def beValue (bs : List Byte) : Nat :=
  bs.foldl (fun a b => a * 256 + b) 0

/-- Big-endian bytes of a `u16` (`StandardId::as_raw().to_be_bytes()`). -/
def beBytes2 (v : Nat) : List Byte :=
  [v / 256 % 256, v % 256]

/-- Big-endian bytes of a `u32` (`ExtendedId::as_raw().to_be_bytes()`). -/
def beBytes4 (v : Nat) : List Byte :=
  [v / 2 ^ 24 % 256, v / 2 ^ 16 % 256, v / 256 % 256, v % 256]

/-! ### Frames and the frame codec -/

/-- bxcan frame identifier: standard (11-bit) or extended (29-bit). -/
inductive FrameId where
  | standard (v : Nat)
  | extended (v : Nat)
deriving DecidableEq

/-- A CAN data frame (bxcan `Frame` restricted to data frames, the only
kind this program constructs). -/
structure Frame where
  id : FrameId
  data : List Byte
deriving DecidableEq

/-- A frame the firmware can actually hold: id in range, 0-8 data bytes,
byte-valued data. -/
def Frame.Valid (f : Frame) : Prop :=
  (match f.id with
   | .standard v => v < 2 ^ 11
   | .extended v => v < 2 ^ 29) ∧
  f.data.length ≤ 8 ∧ ∀ b ∈ f.data, b < 256

/-- slcan.rs `SLCAN::can_frame_representation`, writing into a
`heapless::Vec<u8, 24>`: optional type byte `'t'`/`'T'`, then the id as
uppercase hex (3 digits for standard — the leading nibble of the 2-byte
form is dropped — 8 digits for extended), then the decimal length digit
(`char::from_digit`, which panics for lengths ≥ 10), then the data bytes
as uppercase hex pairs.  Pushing past the 24-byte capacity panics
(heapless `extend`/`extend_from_slice` unwrap), modelled as `none`. -/
def canFrameRepresentation (f : Frame) (includeStart : Bool) : Option (List Byte) :=
  let startPart : List Byte :=
    if includeStart then
      match f.id with
      | .standard _ => [116]
      | .extended _ => [84]
    else []
  let idPart : List Byte :=
    match f.id with
    | .standard v => (hexBytes (beBytes2 v)).drop 1
    | .extended v => hexBytes (beBytes4 v)
  if 10 ≤ f.data.length then none
  else
    let rep := startPart ++ idPart ++ [48 + f.data.length] ++ hexBytes f.data
    if rep.length ≤ 24 then some rep else none

/-! ### Commands and parsing -/

/-- slcan.rs `CommandVariant`: the 14-symbol command alphabet. -/
inductive CommandVariant where
  | setup
  | setupWithBTR
  | openChannel
  | closeChannel
  | transmitFrame
  | transmitExtendedFrame
  | transmitRTRFrame
  | transmitExtendedRTRFrame
  | readStatusFlags
  | setAcceptanceCode
  | setAcceptanceMask
  | getVersion
  | getSerialNumber
  | enableTimeStamps
deriving DecidableEq

/-- slcan.rs `Command`: a parsed variant plus its argument bytes
(`heapless::Vec<u8, 32>`). -/
structure Command where
  variant : CommandVariant
  data : List Byte
deriving DecidableEq

/-- The first-byte dispatch table of `Command::from_bytes`. -/
def commandVariantOfByte (b : Byte) : Option CommandVariant :=
  match b with
  | 83 => some .setup
  | 115 => some .setupWithBTR
  | 79 => some .openChannel
  | 67 => some .closeChannel
  | 116 => some .transmitFrame
  | 84 => some .transmitExtendedFrame
  | 114 => some .transmitRTRFrame
  | 82 => some .transmitExtendedRTRFrame
  | 70 => some .readStatusFlags
  | 77 => some .setAcceptanceCode
  | 109 => some .setAcceptanceMask
  | 86 => some .getVersion
  | 78 => some .getSerialNumber
  | 90 => some .enableTimeStamps
  | _ => none

/-- slcan.rs `Command::from_bytes`: the first byte selects the variant
(anything else, including the empty line, is `InvalidCommand`); the
remaining bytes become the argument vector, which errors past the 32-byte
capacity of `heapless::Vec::from_slice`. -/
def Command.fromBytes (bytes : List Byte) : Except ErrorKind Command :=
  match bytes.head? with
  | none => .error .InvalidCommand
  | some b =>
    match commandVariantOfByte b with
    | none => .error .InvalidCommand
    | some v =>
      if (bytes.drop 1).length ≤ 32 then .ok ⟨v, bytes.drop 1⟩
      else .error .InvalidCommand

/-! ### Queues (`heapless::Deque<u8, 128>`, FIFO, front at the list head) -/

/-- slcan.rs `QueueType = heapless::Deque<u8, 128>`. -/
def QUEUE_CAPACITY : Nat := 128

/-- `Deque::push_back`: fails (returning the rejected byte, queue
unchanged) exactly when the queue is at capacity. -/
def pushBack (q : List Byte) (b : Byte) : Except Byte (List Byte) :=
  if q.length < QUEUE_CAPACITY then .ok (q ++ [b]) else .error b

/-- The terminator path's `rx_queue.iter().collect::<RequestData>()` into
a `heapless::Vec<u8, 32>`: heapless `FromIterator` panics (`none`) when
the iterator overflows the capacity. -/
def collectRequestData (q : List Byte) : Option (List Byte) :=
  if q.length ≤ 32 then some q else none

/-! ### The protocol engine -/

/-- slcan.rs `SLCAN::do_handle_incoming_byte`: a terminator drains the rx
queue (panicking if more than 32 bytes accumulated), clears it, and parses
the line; any other byte is pushed, a full queue yielding `QueueFull`
(via `err_queue_full`) with the queue unchanged. -/
def doHandleIncomingByte (incoming : Byte) (rxq : List Byte) :
    Option (Except ErrorKind (Option Command) × List Byte) :=
  if incoming = COMMAND_TERMINATOR then
    match collectRequestData rxq with
    | none => none
    | some received =>
      match Command.fromBytes received with
      | .ok c => some (.ok (some c), [])
      | .error e => some (.error e, [])
  else
    match pushBack rxq incoming with
    | .ok q' => some (.ok none, q')
    | .error _ => some (.error .QueueFull, rxq)

/-- The error-to-flag mapping inside `SLCAN::handle_incoming_byte`. -/
def applyErrorFlag (st : StatusFlags) (k : ErrorKind) : StatusFlags :=
  match k with
  | .QueueFull => { st with receive_queue_full := true }
  | .InvalidCommand => { st with error_passive := true }
  | .NotImplemented => { st with error_passive := true }
  | .CANError => { st with bus_error := true }
  | .BufferOverrun => { st with transmit_queue_full := true }

/-- slcan.rs `SLCAN::handle_incoming_byte`: runs
`do_handle_incoming_byte` and latches the status flag matching any error
it returned. -/
def SLCAN.handleIncomingByte (s : SLCAN) (incoming : Byte) (rxq : List Byte) :
    Option (Except ErrorKind (Option Command) × SLCAN × List Byte) :=
  match doHandleIncomingByte incoming rxq with
  | none => none
  | some (result, rxq') =>
    let s' : SLCAN :=
      match result with
      | .error k => { s with status := applyErrorFlag s.status k }
      | .ok _ => s
    some (result, s', rxq')

/-! ### The CAN channel controller (canbus.rs) -/

/-- The observable state of canbus.rs `CANBus`: the `enabled` flag plus
the frames handed to the bxcan transmit mailbox (the hardware handle
itself is out of scope). -/
structure CanState where
  enabled : Bool
  transmitted : List Frame
deriving DecidableEq

/-- canbus.rs `CANBus::new` leaves the peripheral disabled. -/
def canInit : CanState := ⟨false, []⟩

/-- canbus.rs `CANBus::get_bit_timings`: every bitrate except 1 Mbit/s
resolves via the `can_timings_bxcan!(8.mhz(), ...)` compile-time macro of
the external `can-bit-timings` crate (its numeric BTR constant is never
inspected by this program, so it is modelled as `Unit`); 1 Mbit/s is
hard-coded to `InvalidTiming`. -/
def CANBus.getBitTimings (br : CANBitrate) : Except CANErrorKind Unit :=
  match br with
  | .Bitrate10k => .ok ()
  | .Bitrate20k => .ok ()
  | .Bitrate50k => .ok ()
  | .Bitrate100k => .ok ()
  | .Bitrate125k => .ok ()
  | .Bitrate250k => .ok ()
  | .Bitrate500k => .ok ()
  | .Bitrate800k => .ok ()
  | .Bitrate1M => .error .InvalidTiming

/-- canbus.rs `CANBus::set_bitrate`: resolves the timing first — an
`InvalidTiming` failure returns early, leaving the state untouched —
then clears `enabled` and reprograms the peripheral left disabled. -/
def CANBus.setBitrate (can : CanState) (br : CANBitrate) :
    Except CANErrorKind Unit × CanState :=
  match CANBus.getBitTimings br with
  | .error e => (.error e, can)
  | .ok _ => (.ok (), { can with enabled := false })

/-- canbus.rs `CANBus::enable`. -/
def CANBus.enable (can : CanState) : CanState := { can with enabled := true }

/-- canbus.rs `CANBus::disable`. -/
def CANBus.disable (can : CanState) : CanState := { can with enabled := false }

/-- canbus.rs `CANBus::transmit`: hands the frame to the bxcan mailbox
(recorded here); a mailbox-full peripheral error would surface as
`BufferOverrun`, but no caller in this program ever invokes transmit. -/
def CANBus.transmit (can : CanState) (f : Frame) :
    Except CANErrorKind Unit × CanState :=
  (.ok (), { can with transmitted := can.transmitted ++ [f] })

/-! ### Command execution -/

/-- The bitrate table of `Command::run_setup` (argument byte '0'..'8'). -/
def bitrateOfArg (b : Option Byte) : Option CANBitrate :=
  match b with
  | some 48 => some .Bitrate10k
  | some 49 => some .Bitrate20k
  | some 50 => some .Bitrate50k
  | some 51 => some .Bitrate100k
  | some 52 => some .Bitrate125k
  | some 53 => some .Bitrate250k
  | some 54 => some .Bitrate500k
  | some 55 => some .Bitrate800k
  | some 56 => some .Bitrate1M
  | _ => none

/-- slcan.rs `Command::run_setup`: select the bitrate from the first
argument byte (anything else is `InvalidCommand`), call `set_bitrate`
(its failure becomes `CANError` and returns before the engine's bitrate
field is written), then record the bitrate and answer with an empty
response. -/
def runSetup (data : List Byte) (s : SLCAN) (can : CanState) :
    Except ErrorKind (List Byte) × SLCAN × CanState :=
  match bitrateOfArg data.head? with
  | none => (.error .InvalidCommand, s, can)
  | some br =>
    match CANBus.setBitrate can br with
    | (.error _, can') => (.error .CANError, s, can')
    | (.ok _, can') => (.ok [], { s with bitrate := some br }, can')

/-- slcan.rs `Command::run_enable_timestamps`: '0'/'1' toggles the flag,
anything else is `InvalidCommand`. -/
def runEnableTimestamps (data : List Byte) (s : SLCAN) :
    Except ErrorKind (List Byte) × SLCAN :=
  match data.head? with
  | some 48 => (.ok [], { s with timestamps_enabled := false })
  | some 49 => (.ok [], { s with timestamps_enabled := true })
  | _ => (.error .InvalidCommand, s)

/-- Rust slice indexing `xs[a..b]`: panics (`none`) unless
`a ≤ b ≤ xs.len()`. -/
def sliceOrPanic (xs : List Byte) (a b : Nat) : Option (List Byte) :=
  if a ≤ b ∧ b ≤ xs.length then some ((xs.drop a).take (b - a)) else none

/-- slcan.rs `Command::run_transmit_frame` on the argument bytes (the
line with its leading 't' already stripped by `from_bytes`): requires at
least 4 bytes, hex-decodes `data[1..4]` into a 2-byte id buffer,
`data[4..5]` into a 1-byte length buffer and `data[5..4+2*len]` into an
8-byte payload buffer (each `hex` failure mapping to `InvalidCommand`),
bounds-checks the id against `StandardId::new`, checks
`data.len() == 4 + 2*len` with `len ≤ 8`, then echoes the re-encoded
frame (`ResponseData::from_slice(..).unwrap`, panicking past 32 bytes).
Slice panics are `none`. -/
def runTransmitFrame (data : List Byte) : Option (Except ErrorKind (List Byte)) :=
  if data.length < 4 then some (.error .InvalidCommand) else
  match sliceOrPanic data 1 4 with
  | none => none
  | some idSlice =>
    match decodeToSlice idSlice 2 with
    | none => some (.error .InvalidCommand)
    | some idBytes =>
      if 2 ^ 11 ≤ beValue idBytes then some (.error .InvalidCommand) else
      match sliceOrPanic data 4 5 with
      | none => none
      | some lenSlice =>
        match decodeToSlice lenSlice 1 with
        | none => some (.error .InvalidCommand)
        | some lenBytes =>
          let dataLen := beValue lenBytes
          if dataLen > 8 ∨ data.length ≠ 4 + 2 * dataLen then
            some (.error .InvalidCommand)
          else
            match sliceOrPanic data 5 (4 + 2 * dataLen) with
            | none => none
            | some dataSlice =>
              match decodeToSlice dataSlice 8 with
              | none => some (.error .InvalidCommand)
              | some dataBytes =>
                let frame : Frame := ⟨.standard (beValue idBytes), dataBytes.take dataLen⟩
                match canFrameRepresentation frame true with
                | none => none
                | some rep => if rep.length ≤ 32 then some (.ok rep) else none

/-- slcan.rs `Command::run_transmit_extended_frame`, same shape with at
least 9 bytes, `data[1..9]` as the 4-byte id, `data[9..10]` as the
length, `data[10..9+2*len]` as the payload and the `ExtendedId` 29-bit
bound. -/
def runTransmitExtendedFrame (data : List Byte) :
    Option (Except ErrorKind (List Byte)) :=
  if data.length < 9 then some (.error .InvalidCommand) else
  match sliceOrPanic data 1 9 with
  | none => none
  | some idSlice =>
    match decodeToSlice idSlice 4 with
    | none => some (.error .InvalidCommand)
    | some idBytes =>
      if 2 ^ 29 ≤ beValue idBytes then some (.error .InvalidCommand) else
      match sliceOrPanic data 9 10 with
      | none => none
      | some lenSlice =>
        match decodeToSlice lenSlice 1 with
        | none => some (.error .InvalidCommand)
        | some lenBytes =>
          let dataLen := beValue lenBytes
          if dataLen > 8 ∨ data.length ≠ 9 + 2 * dataLen then
            some (.error .InvalidCommand)
          else
            match sliceOrPanic data 10 (9 + 2 * dataLen) with
            | none => none
            | some dataSlice =>
              match decodeToSlice dataSlice 8 with
              | none => some (.error .InvalidCommand)
              | some dataBytes =>
                let frame : Frame := ⟨.extended (beValue idBytes), dataBytes.take dataLen⟩
                match canFrameRepresentation frame true with
                | none => none
                | some rep => if rep.length ≤ 32 then some (.ok rep) else none

/-- slcan.rs `Command::run`: dispatch on the variant.  `r`, `R`, `s`,
`M`, `m` are `NotImplemented`; `F`/`V`/`N` render status, version and
serial number; `O`/`C` enable/disable the channel.  The transmit
handlers can panic (`none`); every other path returns. -/
def Command.run (c : Command) (s : SLCAN) (can : CanState) :
    Option (Except ErrorKind (List Byte) × SLCAN × CanState) :=
  match c.variant with
  | .setup => some (runSetup c.data s can)
  | .setupWithBTR => some (.error .NotImplemented, s, can)
  | .openChannel => some (.ok [], s, CANBus.enable can)
  | .closeChannel => some (.ok [], s, CANBus.disable can)
  | .transmitFrame => (runTransmitFrame c.data).map (fun r => (r, s, can))
  | .transmitExtendedFrame => (runTransmitExtendedFrame c.data).map (fun r => (r, s, can))
  | .transmitRTRFrame => some (.error .NotImplemented, s, can)
  | .transmitExtendedRTRFrame => some (.error .NotImplemented, s, can)
  | .readStatusFlags => some (.ok (70 :: hexByte s.status.pack), s, can)
  | .setAcceptanceCode => some (.error .NotImplemented, s, can)
  | .setAcceptanceMask => some (.error .NotImplemented, s, can)
  | .getVersion =>
    some (.ok (86 :: hexBytes [s.version.hardware_version, s.version.software_version]), s, can)
  | .getSerialNumber => some (.ok (78 :: s.serial_number), s, can)
  | .enableTimeStamps =>
    match runEnableTimestamps c.data s with
    | (r, s') => some (r, s', can)

/-! ### Response handling and the CAN-frame output path -/

/-- Push a byte list one element at a time (`push_back(..)?` in a loop):
on a full queue the already-pushed prefix stays behind and the rejected
byte is returned. -/
def pushSeq (q : List Byte) : List Byte → Except Byte Unit × List Byte
  | [] => (.ok (), q)
  | b :: rest =>
    match pushBack q b with
    | .ok q' => pushSeq q' rest
    | .error e => (.error e, q)

/-- slcan.rs `SLCAN::do_handle_command_output`: a success pushes the
response bytes then the terminator; a failure pushes the single bell
byte. -/
def doHandleCommandOutput (output : Except ErrorKind (List Byte)) (txq : List Byte) :
    Except Byte Unit × List Byte :=
  match output with
  | .ok data => pushSeq txq (data ++ [COMMAND_TERMINATOR])
  | .error _ =>
    match pushBack txq ERROR_CHAR with
    | .ok q' => (.ok (), q')
    | .error e => (.error e, txq)

/-- slcan.rs `SLCAN::handle_command_output`: maps a push failure to
`QueueFull` and latches `transmit_queue_full` on it. -/
def SLCAN.handleCommandOutput (s : SLCAN) (output : Except ErrorKind (List Byte))
    (txq : List Byte) : Except ErrorKind Unit × SLCAN × List Byte :=
  match doHandleCommandOutput output txq with
  | (.error _, txq') =>
    (.error .QueueFull, { s with status := { s.status with transmit_queue_full := true } }, txq')
  | (.ok _, txq') => (.ok (), s, txq')

/-- slcan.rs `SLCAN::handle_incoming_can_frame` (an associated function:
it has no access to the engine's status flags): encodes the frame — a
panic in the encoder propagates — and, unless the representation plus
terminator fits the remaining capacity, reports `BufferOverrun` with the
queue untouched; otherwise the pushes are unwrapped (they cannot fail
after the capacity check). -/
def handleIncomingCanFrame (f : Frame) (txq : List Byte) :
    Option (Except ErrorKind Unit × List Byte) :=
  match canFrameRepresentation f true with
  | none => none
  | some rep =>
    if QUEUE_CAPACITY - txq.length ≤ rep.length then some (.error .BufferOverrun, txq)
    else some (.ok (), txq ++ rep ++ [COMMAND_TERMINATOR])

/-- main.rs `tick_can` with a pending received frame: when the channel is
enabled, a received frame goes through `handle_incoming_can_frame`
followed by `.unwrap()` — any error there panics the firmware (`none`).
The `slcan` shared state is visible to the task but never touched. -/
def tickCan (s : SLCAN) (can : CanState) (pending : Option Frame) (txq : List Byte) :
    Option (SLCAN × CanState × List Byte) :=
  if can.enabled then
    match pending with
    | none => some (s, can, txq)
    | some f =>
      match handleIncomingCanFrame f txq with
      | none => none
      | some (.error _, _) => none
      | some (.ok _, txq') => some (s, can, txq')
  else some (s, can, txq)

/-! ### The serial interrupt pipeline (main.rs `serial`) -/

/-- The full engine state threaded through the serial interrupt handler. -/
structure EngineState where
  slcan : SLCAN
  can : CanState
  rxq : List Byte
  txq : List Byte
deriving DecidableEq

/-- One byte of main.rs `serial`: `handle_incoming_byte`; a complete
command is `run` and its output pushed via
`handle_command_output(..).unwrap()` — the unwrap panics (`none`) when
the outbound queue overflows; handler errors only light the red LED. -/
def serialStep (st : EngineState) (b : Byte) : Option EngineState :=
  match st.slcan.handleIncomingByte b st.rxq with
  | none => none
  | some (.error _, s', rxq') => some ⟨s', st.can, rxq', st.txq⟩
  | some (.ok none, s', rxq') => some ⟨s', st.can, rxq', st.txq⟩
  | some (.ok (some cmd), s', rxq') =>
    match cmd.run s' st.can with
    | none => none
    | some (out, s'', can') =>
      match s''.handleCommandOutput out st.txq with
      | (.error _, _, _) => none
      | (.ok _, s3, txq') => some ⟨s3, can', rxq', txq'⟩

/-- A freshly reset engine with empty queues and a disabled channel. -/
def initState : EngineState := ⟨SLCAN.new, canInit, [], []⟩

/-- Feed a byte sequence to the serial handler from the reset state. -/
def processLine (bytes : List Byte) : Option EngineState :=
  bytes.foldlM serialStep initState

/-! ### Helper lemmas -/

/-- The standard-frame transmit decoder can never succeed: `from_bytes`
strips the leading 't', so `data[1..4]` holds only 3 hex characters,
and `hex::decode_to_slice` rejects any odd-length input before anything
else is examined. -/
theorem runTransmitFrame_invalid (data : List Byte) :
    runTransmitFrame data = some (.error .InvalidCommand) := by
  unfold runTransmitFrame
  by_cases h : data.length < 4
  · simp [h]
  · have h4 : 4 ≤ data.length := Nat.le_of_not_lt h
    have hs : sliceOrPanic data 1 4 = some ((data.drop 1).take 3) := by
      unfold sliceOrPanic
      rw [if_pos ⟨by omega, by omega⟩]
    have hmin : 3 ⊓ (data.length - 1) = 3 := by omega
    simp [h, hs, decodeToSlice, hmin]

/-- Pointwise flag implication: `a.le b` when every flag set in `a` is
set in `b`. -/
def StatusFlags.le (a b : StatusFlags) : Prop :=
  (a.receive_queue_full = true → b.receive_queue_full = true) ∧
  (a.transmit_queue_full = true → b.transmit_queue_full = true) ∧
  (a.error_warning = true → b.error_warning = true) ∧
  (a.data_overrun = true → b.data_overrun = true) ∧
  (a.error_passive = true → b.error_passive = true) ∧
  (a.arbitration_lost = true → b.arbitration_lost = true) ∧
  (a.bus_error = true → b.bus_error = true)

theorem StatusFlags.le_refl (a : StatusFlags) : a.le a :=
  ⟨id, id, id, id, id, id, id⟩

theorem StatusFlags.le_applyErrorFlag (a : StatusFlags) (k : ErrorKind) :
    a.le (applyErrorFlag a k) := by
  cases k <;> unfold applyErrorFlag <;>
    exact ⟨fun h => by simp [h], fun h => by simp [h], fun h => by simp [h],
      fun h => by simp [h], fun h => by simp [h], fun h => by simp [h],
      fun h => by simp [h]⟩

theorem StatusFlags.le_set_tqf (a : StatusFlags) :
    a.le { a with transmit_queue_full := true } :=
  ⟨fun h => h, fun _ => rfl, fun h => h, fun h => h, fun h => h, fun h => h, fun h => h⟩

/-- Every path of `run_setup` leaves the status register untouched. -/
theorem runSetup_status (data : List Byte) (s : SLCAN) (can : CanState) :
    (runSetup data s can).2.1.status = s.status := by
  unfold runSetup
  split
  · rfl
  · split <;> rfl

/-- Every path of `run_enable_timestamps` leaves the status register
untouched. -/
theorem runEnableTimestamps_status (data : List Byte) (s : SLCAN) :
    (runEnableTimestamps data s).2.status = s.status := by
  unfold runEnableTimestamps
  split <;> rfl

/-! ### Claims -/

/-- C1: the claimed round-trip `decode(encode(frame)) == frame` fails on
this code for every frame.  The standard-frame decoder rejects every
input (`data[1..4]` is a 3-character hex string, rejected as odd-length
before anything else), shown here together with a concrete standard
round-trip (id 0x123, data [0xAA]) and a concrete extended round-trip
(id 0x1234567, data [0x01]) both of which come back `InvalidCommand`
instead of the original frame. -/
theorem claim_C1_roundtrip_broken :
    (∀ data, runTransmitFrame data = some (.error .InvalidCommand)) ∧
    canFrameRepresentation ⟨.standard 0x123, [0xAA]⟩ true =
      some [116, 49, 50, 51, 49, 65, 65] ∧
    Command.fromBytes [116, 49, 50, 51, 49, 65, 65] =
      .ok ⟨.transmitFrame, [49, 50, 51, 49, 65, 65]⟩ ∧
    Command.run ⟨.transmitFrame, [49, 50, 51, 49, 65, 65]⟩ SLCAN.new canInit =
      some (.error .InvalidCommand, SLCAN.new, canInit) ∧
    canFrameRepresentation ⟨.extended 0x1234567, [0x01]⟩ true =
      some [84, 48, 49, 50, 51, 52, 53, 54, 55, 49, 48, 49] ∧
    Command.fromBytes [84, 48, 49, 50, 51, 52, 53, 54, 55, 49, 48, 49] =
      .ok ⟨.transmitExtendedFrame, [48, 49, 50, 51, 52, 53, 54, 55, 49, 48, 49]⟩ ∧
    Command.run ⟨.transmitExtendedFrame, [48, 49, 50, 51, 52, 53, 54, 55, 49, 48, 49]⟩
      SLCAN.new canInit = some (.error .InvalidCommand, SLCAN.new, canInit) :=
  ⟨runTransmitFrame_invalid, by decide, by decide, by decide, by decide, by decide,
    by decide⟩

/-- C2: a well-formed standard transmit line is NOT echoed back and the
frame is never submitted: the whole line `"t1231AA\r"` (standard id
0x123, length 1, data 0xAA) yields the bell byte, the engine and channel
states are untouched, and nothing is ever handed to `CANBus::transmit`. -/
theorem claim_C2_transmit_broken :
    processLine [116, 49, 50, 51, 49, 65, 65, 13] =
      some ⟨SLCAN.new, canInit, [], [7]⟩ ∧
    (processLine [116, 49, 50, 51, 49, 65, 65, 13]).map
      (fun st => st.can.transmitted) = some [] := by decide

/-- C4: a terminated line of 33 bytes (inside the 128-byte inbound queue
but past the 32-byte `RequestData` capacity) makes the terminator path
panic — heapless `Vec::from_iter` overflows in
`rx_queue.iter().collect()` — instead of returning an error. -/
theorem claim_C4_oversize_line_panics :
    processLine (List.replicate 33 88 ++ [13]) = none ∧
    SLCAN.handleIncomingByte SLCAN.new 13 (List.replicate 33 88) = none := by decide

/-- C7: bit-timing resolution fails with `InvalidTiming` exactly for the
1 Mbit/s bitrate, succeeds for the other eight, and the line `"S8\r"` on
a fresh engine answers with the single bell byte 0x07 and no
terminator. -/
theorem claim_C7_bitrate_1M_rejected :
    CANBus.getBitTimings .Bitrate1M = .error .InvalidTiming ∧
    CANBus.getBitTimings .Bitrate10k = .ok () ∧
    CANBus.getBitTimings .Bitrate20k = .ok () ∧
    CANBus.getBitTimings .Bitrate50k = .ok () ∧
    CANBus.getBitTimings .Bitrate100k = .ok () ∧
    CANBus.getBitTimings .Bitrate125k = .ok () ∧
    CANBus.getBitTimings .Bitrate250k = .ok () ∧
    CANBus.getBitTimings .Bitrate500k = .ok () ∧
    CANBus.getBitTimings .Bitrate800k = .ok () ∧
    processLine [83, 56, 13] = some ⟨SLCAN.new, canInit, [], [7]⟩ := by decide

/-- C3 counterexample: an unknown command letter (`"X\r"` on a fresh
engine) is rejected, but the status flags are NOT all unchanged: the
engine latches `error_passive` (while bitrate and channel state are
indeed untouched). -/
theorem claim_C3_counterexample :
    (processLine [88, 13]).map (fun st => st.slcan.status.error_passive) = some true ∧
    SLCAN.new.status.error_passive = false ∧
    (processLine [88, 13]).map (fun st => st.slcan.bitrate) = some none ∧
    (processLine [88, 13]).map (fun st => st.can) = some canInit := by decide

/-- C3 (amended): a terminated line that is empty or starts with a byte
outside the 14-letter command alphabet (and fits the 32-byte request
capacity — longer lines panic instead, see C4) is rejected with
`InvalidCommand` before any dispatch: channel state, stored bitrate and
the outbound queue are unchanged, the inbound queue is cleared, and the
only status-flag change is that `error_passive` is latched. -/
theorem claim_C3_amended (s : SLCAN) (can : CanState) (rxq txq : List Byte)
    (h1 : rxq.length ≤ 32)
    (h2 : ∀ b, rxq.head? = some b → commandVariantOfByte b = none) :
    serialStep ⟨s, can, rxq, txq⟩ 13 =
      some ⟨{ s with status := { s.status with error_passive := true } }, can, [], txq⟩ := by
  have hfb : Command.fromBytes rxq = .error .InvalidCommand := by
    unfold Command.fromBytes
    cases rxq with
    | nil => rfl
    | cons b t =>
      have hb := h2 b rfl
      simp [hb]
  unfold serialStep SLCAN.handleIncomingByte doHandleIncomingByte collectRequestData
  simp [COMMAND_TERMINATOR, h1, hfb, applyErrorFlag]

theorem claim_C3_witness :
    ([88] : List Byte).length ≤ 32 ∧
    serialStep ⟨SLCAN.new, canInit, [88], []⟩ 13 =
      some ⟨{ SLCAN.new with status := { SLCAN.new.status with error_passive := true } },
        canInit, [], []⟩ :=
  ⟨by decide, claim_C3_amended SLCAN.new canInit [88] [] (by decide)
    (fun b hb => by injection hb with h; exact h ▸ (by decide))⟩

/-- C5 counterexample: an outbound-queue overflow does NOT always set
`transmit_queue_full` and can panic the firmware: with the channel open
and 125 bytes already queued, a received frame makes
`handle_incoming_can_frame` report `BufferOverrun` with no access to the
status register, and `tick_can`'s `.unwrap()` panics on it. -/
theorem claim_C5_counterexample :
    handleIncomingCanFrame ⟨.standard 1, []⟩ (List.replicate 125 65) =
      some (.error .BufferOverrun, List.replicate 125 65) ∧
    tickCan SLCAN.new ⟨true, []⟩ (some ⟨.standard 1, []⟩) (List.replicate 125 65) =
      none := by decide

/-- C5 (amended): an overflowing command-response push reports
`QueueFull` and latches `transmit_queue_full`; an overflowing
received-frame push reports `BufferOverrun` with the queue untouched but
sets no flag (the function has no access to the status register); and
the callers in main unwrap both results, so an outbound overflow on the
received-frame path panics the firmware (shown at a concrete state). -/
theorem claim_C5_amended :
    (∀ s out txq e s' txq',
      SLCAN.handleCommandOutput s out txq = (.error e, s', txq') →
      e = .QueueFull ∧
      s' = { s with status := { s.status with transmit_queue_full := true } }) ∧
    (∀ f txq e txq',
      handleIncomingCanFrame f txq = some (.error e, txq') →
      e = .BufferOverrun ∧ txq' = txq) ∧
    tickCan SLCAN.new ⟨true, []⟩ (some ⟨.standard 0, []⟩) (List.replicate 124 65) =
      none := by
  refine ⟨?_, ?_, by decide⟩
  · intro s out txq e s' txq' h
    unfold SLCAN.handleCommandOutput at h
    cases hdo : doHandleCommandOutput out txq with
    | mk r q2 =>
      rw [hdo] at h
      cases r with
      | error b =>
        simp only [Prod.mk.injEq, Except.error.injEq] at h
        exact ⟨h.1.symm, h.2.1.symm⟩
      | ok u => simp at h
  · intro f txq e txq' h
    unfold handleIncomingCanFrame at h
    split at h
    · exact absurd h (by simp)
    · split at h
      · simp only [Option.some.injEq, Prod.mk.injEq, Except.error.injEq] at h
        exact ⟨h.1.symm, h.2.symm⟩
      · simp at h

theorem claim_C5_witness :
    (SLCAN.handleCommandOutput SLCAN.new (.error .CANError) (List.replicate 128 65) =
      (.error .QueueFull,
        { SLCAN.new with status := { SLCAN.new.status with transmit_queue_full := true } },
        List.replicate 128 65)) ∧
    ((.QueueFull : ErrorKind) = .QueueFull ∧
      ({ SLCAN.new with status := { SLCAN.new.status with transmit_queue_full := true } }
        : SLCAN) =
      { SLCAN.new with status := { SLCAN.new.status with transmit_queue_full := true } }) ∧
    (handleIncomingCanFrame ⟨.standard 2, []⟩ (List.replicate 126 65) =
      some (.error .BufferOverrun, List.replicate 126 65)) ∧
    ((.BufferOverrun : ErrorKind) = .BufferOverrun ∧
      List.replicate 126 65 = (List.replicate 126 65 : List Byte)) :=
  ⟨by decide,
    claim_C5_amended.1 SLCAN.new (.error .CANError) (List.replicate 128 65) .QueueFull
      { SLCAN.new with status := { SLCAN.new.status with transmit_queue_full := true } }
      (List.replicate 128 65) (by decide),
    by decide,
    claim_C5_amended.2.1 ⟨.standard 2, []⟩ (List.replicate 126 65) .BufferOverrun
      (List.replicate 126 65) (by decide)⟩

/-- C6 counterexample: `set_bitrate` with the unrepresentable 1 Mbit/s
bitrate on an enabled channel fails with `InvalidTiming` and leaves the
channel ENABLED, contradicting "disabled regardless of prior state". -/
theorem claim_C6_counterexample :
    (CANBus.setBitrate ⟨true, []⟩ .Bitrate1M).1 = .error .InvalidTiming ∧
    (CANBus.setBitrate ⟨true, []⟩ .Bitrate1M).2.enabled = true := by decide

/-- C6 (amended): a `set_bitrate` call that succeeds leaves the channel
disabled regardless of prior state; a call that fails (the 1 Mbit/s
timing) returns early and leaves the whole channel state unchanged. -/
theorem claim_C6_amended (can : CanState) (br : CANBitrate) :
    (∀ u, (CANBus.setBitrate can br).1 = .ok u →
      (CANBus.setBitrate can br).2.enabled = false) ∧
    (∀ e, (CANBus.setBitrate can br).1 = .error e →
      (CANBus.setBitrate can br).2 = can) := by
  cases br <;> simp [CANBus.setBitrate, CANBus.getBitTimings]

theorem claim_C6_witness :
    ((CANBus.setBitrate ⟨true, []⟩ .Bitrate10k).1 = .ok () ∧
      (CANBus.setBitrate ⟨true, []⟩ .Bitrate10k).2.enabled = false) ∧
    ((CANBus.setBitrate ⟨true, []⟩ .Bitrate1M).1 = .error .InvalidTiming ∧
      (CANBus.setBitrate ⟨true, []⟩ .Bitrate1M).2 = ⟨true, []⟩) :=
  ⟨⟨by decide, (claim_C6_amended ⟨true, []⟩ .Bitrate10k).1 () (by decide)⟩,
    ⟨by decide, (claim_C6_amended ⟨true, []⟩ .Bitrate1M).2 .InvalidTiming (by decide)⟩⟩

/-- C8: with the inbound queue at its 128-byte capacity, a non-terminator
byte yields `QueueFull`, latches `receive_queue_full`, drops only the
offending byte, and leaves the queue contents exactly as they were. -/
theorem claim_C8_rx_queue_full (s : SLCAN) (q : List Byte) (b : Byte)
    (hq : q.length = 128) (hb : b ≠ 13) :
    SLCAN.handleIncomingByte s b q =
      some (.error .QueueFull,
        { s with status := { s.status with receive_queue_full := true } }, q) := by
  unfold SLCAN.handleIncomingByte doHandleIncomingByte pushBack
  simp [COMMAND_TERMINATOR, hb, hq, QUEUE_CAPACITY, applyErrorFlag]

theorem claim_C8_witness :
    (List.replicate 128 65 : List Byte).length = 128 ∧ (66 : Byte) ≠ 13 ∧
    SLCAN.handleIncomingByte SLCAN.new 66 (List.replicate 128 65) =
      some (.error .QueueFull,
        { SLCAN.new with status := { SLCAN.new.status with receive_queue_full := true } },
        List.replicate 128 65) :=
  ⟨by decide, by decide,
    claim_C8_rx_queue_full SLCAN.new (List.replicate 128 65) 66 (by decide) (by decide)⟩

/-- C10: the Setup command is atomic on failure — whenever running a
Setup command returns an error (bad argument byte, or the 1 Mbit/s
timing failure), the engine's stored bitrate field is unchanged. -/
theorem claim_C10_setup_atomic (data : List Byte) (s : SLCAN) (can : CanState)
    (e : ErrorKind) (s' : SLCAN) (can' : CanState)
    (h : Command.run ⟨.setup, data⟩ s can = some (.error e, s', can')) :
    s'.bitrate = s.bitrate := by
  replace h : runSetup data s can = (.error e, s', can') := Option.some.inj h
  unfold runSetup at h
  split at h
  · simp only [Prod.mk.injEq] at h
    rw [← h.2.1]
  · split at h
    · simp only [Prod.mk.injEq] at h
      rw [← h.2.1]
    · simp only [Prod.mk.injEq] at h
      exact absurd h.1 (by simp)

theorem claim_C10_witness :
    Command.run ⟨.setup, [57]⟩ SLCAN.new canInit =
      some (.error .InvalidCommand, SLCAN.new, canInit) ∧
    SLCAN.new.bitrate = SLCAN.new.bitrate :=
  ⟨by decide,
    claim_C10_setup_atomic [57] SLCAN.new canInit .InvalidCommand SLCAN.new canInit
      (by decide)⟩

/-- C9: status flags are latching.  Incoming-byte handling only ever
applies `applyErrorFlag` (which sets flags); command execution never
touches the status register at all; command-output handling at worst
latches `transmit_queue_full`; and the CAN-poll task never modifies the
engine state.  A fresh engine starts with all flags clear. -/
theorem claim_C9_latching :
    (∀ s b q r s' q', SLCAN.handleIncomingByte s b q = some (r, s', q') →
      StatusFlags.le s.status s'.status) ∧
    (∀ c s can res, Command.run c s can = some res → res.2.1.status = s.status) ∧
    (∀ s out q, StatusFlags.le s.status (SLCAN.handleCommandOutput s out q).2.1.status) ∧
    (∀ s can pf q res, tickCan s can pf q = some res → res.1 = s) ∧
    SLCAN.new.status = StatusFlags.new := by
  refine ⟨?_, ?_, ?_, ?_, rfl⟩
  · intro s b q r s' q' h
    unfold SLCAN.handleIncomingByte at h
    cases hdo : doHandleIncomingByte b q with
    | none => rw [hdo] at h; cases h
    | some p =>
      rw [hdo] at h
      obtain ⟨res, q2⟩ := p
      cases res with
      | error k =>
        simp only [Option.some.injEq, Prod.mk.injEq] at h
        rw [← h.2.1]
        exact StatusFlags.le_applyErrorFlag s.status k
      | ok v =>
        simp only [Option.some.injEq, Prod.mk.injEq] at h
        rw [← h.2.1]
        exact StatusFlags.le_refl s.status
  · intro c s can res h
    unfold Command.run at h
    cases hv : c.variant <;> rw [hv] at h
    case setup =>
      replace h : runSetup c.data s can = res := Option.some.inj h
      rw [← h]
      exact runSetup_status c.data s can
    case setupWithBTR =>
      replace h := Option.some.inj h
      rw [← h]
    case openChannel =>
      replace h := Option.some.inj h
      rw [← h]
    case closeChannel =>
      replace h := Option.some.inj h
      rw [← h]
    case transmitFrame =>
      rw [runTransmitFrame_invalid c.data] at h
      replace h := Option.some.inj h
      rw [← h]
    case transmitExtendedFrame =>
      rcases Option.map_eq_some'.mp h with ⟨a, -, ha⟩
      rw [← ha]
    case transmitRTRFrame =>
      replace h := Option.some.inj h
      rw [← h]
    case transmitExtendedRTRFrame =>
      replace h := Option.some.inj h
      rw [← h]
    case readStatusFlags =>
      replace h := Option.some.inj h
      rw [← h]
    case setAcceptanceCode =>
      replace h := Option.some.inj h
      rw [← h]
    case setAcceptanceMask =>
      replace h := Option.some.inj h
      rw [← h]
    case getVersion =>
      replace h := Option.some.inj h
      rw [← h]
    case getSerialNumber =>
      replace h := Option.some.inj h
      rw [← h]
    case enableTimeStamps =>
      rcases hets : runEnableTimestamps c.data s with ⟨r1, s1⟩
      rw [hets] at h
      replace h := Option.some.inj h
      rw [← h]
      have hst := runEnableTimestamps_status c.data s
      rw [hets] at hst
      exact hst
  · intro s out q
    unfold SLCAN.handleCommandOutput
    split
    · exact StatusFlags.le_set_tqf s.status
    · exact StatusFlags.le_refl s.status
  · intro s can pf q res h
    unfold tickCan at h
    split at h
    · cases pf with
      | none =>
        replace h := Option.some.inj h
        rw [← h]
      | some f =>
        dsimp only at h
        cases hf : handleIncomingCanFrame f q with
        | none => rw [hf] at h; cases h
        | some p =>
          rw [hf] at h
          obtain ⟨r1, q2⟩ := p
          cases r1 with
          | error e => cases h
          | ok u =>
            replace h := Option.some.inj h
            rw [← h]
    · replace h := Option.some.inj h
      rw [← h]

theorem claim_C9_witness :
    SLCAN.handleIncomingByte SLCAN.new 65 [] = some (.ok none, SLCAN.new, [65]) ∧
    StatusFlags.le SLCAN.new.status SLCAN.new.status :=
  ⟨by decide,
    claim_C9_latching.1 SLCAN.new 65 [] (.ok none) SLCAN.new [65] (by decide)⟩
